import Mathlib

set_option maxHeartbeats 1000000

/- Shallow embedding of catalyst's Neptune logger (src/catalyst/loggers/neptune.py)
   and of the environment/provenance dump (src/catalyst/utils/sys.py).

   Python dicts are modelled as insertion-ordered association lists with unique keys;
   the operations below follow Python semantics: setting an existing key updates the
   entry in place, setting a fresh key appends it, popping a missing key raises
   KeyError (modelled as none), iteration follows insertion order. -/

/-- Python str.startswith, modelled on the code-point sequence of the string. -/
def pyStartsWith (s p : String) : Bool :=
  p.data.isPrefixOf s.data

/-- Python str.endswith, modelled on the code-point sequence of the string. -/
def pyEndsWith (s p : String) : Bool :=
  p.data.isSuffixOf s.data

/-- Python str.strip with no argument: remove whitespace from both ends. -/
def pyStrip (s : String) : String :=
  String.mk (((s.data.dropWhile Char.isWhitespace).reverse.dropWhile Char.isWhitespace).reverse)

/-- Keys of an association list modelling a Python dict, in insertion order. -/
def keyList {V : Type} (d : List (String × V)) : List String :=
  d.map Prod.fst

/-- Python membership test `k in d` for the modelled dict. -/
def hasKey {V : Type} (d : List (String × V)) (k : String) : Bool :=
  d.any (fun p => p.1 == k)

/-- Python lookup `d[k]`; none models the KeyError raised on a missing key. -/
def getVal? {V : Type} (d : List (String × V)) (k : String) : Option V :=
  (d.find? (fun p => p.1 == k)).map Prod.snd

/-- Removal of a key, keeping the order of the remaining entries. -/
def eraseKey {V : Type} (d : List (String × V)) (k : String) : List (String × V) :=
  d.filter (fun p => p.1 != k)

/-- Python assignment `d[k] = v`: update in place when the key exists, append otherwise. -/
def setKey {V : Type} (d : List (String × V)) (k : String) (v : V) : List (String × V) :=
  if hasKey d k then d.map (fun p => if p.1 == k then (k, v) else p) else d ++ [(k, v)]

/-- Python `d.pop(k)`: the removed value and the remaining dict; none models KeyError. -/
def popKey? {V : Type} (d : List (String × V)) (k : String) : Option (V × List (String × V)) :=
  match getVal? d k with
  | some v => some (v, eraseKey d k)
  | none => none

/-- First pass of _prepare_metrics (neptune.py lines 25-30): iterate over the snapshot
`list(processed_metrics.keys())`; for a key ending in "/std" whose "/val" sibling is
absent, execute `processed_metrics[k_val] = processed_metrics.pop(k_stripped)`.
The result none models the KeyError raised by pop when the base key is missing. -/
def stdPass {V : Type} : List String → List (String × V) → Option (List (String × V))
  | [], d => some d
  | k :: ks, d =>
    if pyEndsWith k "/std" then
      let k_stripped := k.dropRight 4
      let k_val := k_stripped ++ "/val"
      if hasKey d k_val then stdPass ks d
      else
        match popKey? d k_stripped with
        | none => none
        | some (v, d1) => stdPass ks (setKey d1 k_val v)
    else stdPass ks d

/-- Body of the nested conflict scan of _prepare_metrics (lines 31-34): k is appended
when some other key j of the current dict starts with k and k was not flagged yet. -/
def conflictStep (ks : List String) (acc : List String) (k : String) : List String :=
  if (ks.any fun j => pyStartsWith j k && j != k) && !(acc.contains k) then acc ++ [k]
  else acc

/-- The conflict_keys list built by the second pass of _prepare_metrics. -/
def conflictKeys (ks : List String) : List String :=
  ks.foldl (conflictStep ks) []

/-- Third pass of _prepare_metrics (lines 35-36):
`processed_metrics[i + "_val"] = processed_metrics.pop(i)` for every flagged key i. -/
def renamePass {V : Type} : List String → List (String × V) → Option (List (String × V))
  | [], d => some d
  | i :: is, d =>
    match popKey? d i with
    | none => none
    | some (v, d1) => renamePass is (setKey d1 (i ++ "_val") v)

/-- _prepare_metrics from src/catalyst/loggers/neptune.py (lines 22-37), the
MetricKeyConflictResolver of the spec. The input list models the metrics dict
(unique keys, insertion order); none models an uncaught KeyError. -/
def prepare_metrics {V : Type} (metrics : List (String × V)) : Option (List (String × V)) :=
  match stdPass (keyList metrics) metrics with
  | none => none
  | some d1 => renamePass (conflictKeys (keyList d1)) d1

example : prepare_metrics [("loss/std", (1 : Int)), ("loss", 2)]
    = some [("loss/std", 1), ("loss/val", 2)] := by decide

example : prepare_metrics [("loss", (2 : Int)), ("loss/auc", 9)]
    = some [("loss/auc", 9), ("loss_val", 2)] := by decide

example : prepare_metrics [("a", (1 : Int)), ("b", 2)] = some [("a", 1), ("b", 2)] := by
  decide

example : prepare_metrics [("p/std", (1 : Int))] = none := by decide

example : prepare_metrics [("a", (1 : Int)), ("a_valx", 2)]
    = some [("a_valx", 2), ("a_val", 1)] := by decide

example : prepare_metrics [("a", (1 : Int)), ("a_val", 2)] = some [("a_val", 1)] := by
  decide

example : prepare_metrics [("a_valx", (2 : Int)), ("a_val", 1)]
    = some [("a_valx", 2), ("a_val_val", 1)] := by decide

/- NeptuneLogger (src/catalyst/loggers/neptune.py). The backend run object is modelled
   by the list of writes a call performs; a Python exception escaping the call is
   modelled by the err field. In-memory objects (numpy images, pickled artifacts) are
   modelled by opaque Nat tokens. -/

/-- Metric values passed to log_metrics: a float, or (for the epoch scope) a nested
dict keyed by loader, as the runner supplies through the "_epoch_" sentinel. -/
inductive MetricV
  | num (x : Int)
  | table (entries : List (String × MetricV))

/-- Python exceptions that the modelled methods can raise. -/
inductive PyErr
  | keyError
  | typeError
  | unboundLocal
deriving DecidableEq, Repr

/-- One backend operation performed on the Neptune run object. -/
inductive Write
  | metricAppend (path key : String) (value : Int) (step : Nat)
  | imageAppend (path : String) (image : Nat)
  | uploadPickle (path : String) (obj : Nat)
  | uploadFile (path : String) (file : String)
deriving DecidableEq, Repr

/-- Outcome of one logger call: the backend writes performed, in order, and the
exception that escaped the call, if any. -/
structure LogResult where
  writes : List Write
  err : Option PyErr
deriving DecidableEq, Repr

/-- Constructor state of NeptuneLogger relevant to the log_* methods. -/
structure LoggerCfg where
  base_namespace : String
  log_batch_metrics : Bool
  log_epoch_metrics : Bool

/-- The runner coordinates read by the logger. -/
structure Runner where
  epoch_step : Nat
  loader_key : String
  batch_step : Nat
  sample_step : Nat

/-- Python f-string {n:04d} formatting of a nonnegative step. -/
def format04 (n : Nat) : String :=
  String.mk (List.replicate (4 - (toString n).length) '0') ++ toString n

/-- NeptuneLogger._log_metrics: appends float(value) at the given step for each metric
in iteration order; a non-numeric value raises TypeError after the earlier writes. -/
def metricWrites (path : String) (step : Nat) : List (String × MetricV) → LogResult
  | [] => ⟨[], none⟩
  | (k, MetricV.num x) :: rest =>
    let r := metricWrites path step rest
    ⟨Write.metricAppend path k x step :: r.writes, r.err⟩
  | (_, MetricV.table _) :: _ => ⟨[], some PyErr.typeError⟩

/-- NeptuneLogger.log_metrics (lines 244-274). -/
def log_metrics (cfg : LoggerCfg) (metrics : List (String × MetricV)) (scope : Option String)
    (r : Runner) : LogResult :=
  if scope = some "batch" ∧ cfg.log_batch_metrics = true then
    metricWrites (String.intercalate "/" [cfg.base_namespace, r.loader_key, "batch"])
      r.sample_step metrics
  else if scope = some "loader" ∧ cfg.log_epoch_metrics = true then
    match prepare_metrics metrics with
    | none => ⟨[], some PyErr.keyError⟩
    | some pm =>
      metricWrites (String.intercalate "/" [cfg.base_namespace, r.loader_key, "loader"])
        r.epoch_step pm
  else if scope = some "epoch" ∧ cfg.log_epoch_metrics = true then
    match getVal? metrics "_epoch_" with
    | none => ⟨[], some PyErr.keyError⟩
    | some (MetricV.num _) => ⟨[], some PyErr.typeError⟩
    | some (MetricV.table entries) =>
      match prepare_metrics entries with
      | none => ⟨[], some PyErr.keyError⟩
      | some pm =>
        if pm.isEmpty then ⟨[], none⟩
        else metricWrites (String.intercalate "/" [cfg.base_namespace, "epoch"]) r.epoch_step pm
  else if scope = some "experiment" ∨ scope = none then
    metricWrites cfg.base_namespace 0 metrics
  else ⟨[], none⟩

/-- The neptune_path assignment of NeptuneLogger.log_image (lines 222-237); none models
the branch chain leaving log_path unassigned for an unrecognized scope. -/
def log_image_path (cfg : LoggerCfg) (r : Runner) (tag : String) (scope : Option String) :
    Option String :=
  if scope = some "batch" ∨ scope = some "loader" then
    some (String.intercalate "/" [cfg.base_namespace, "_images",
      "epoch-" ++ format04 r.epoch_step, "loader-" ++ r.loader_key, tag])
  else if scope = some "epoch" then
    some (String.intercalate "/" [cfg.base_namespace, "_images",
      "epoch-" ++ format04 r.epoch_step, tag])
  else if scope = some "experiment" ∨ scope = none then
    some (String.intercalate "/" [cfg.base_namespace, "_images", tag])
  else none

/-- NeptuneLogger.log_image (lines 214-238): the unconditional final call
`self._log_image(image, log_path)` raises when log_path was never assigned. -/
def log_image (cfg : LoggerCfg) (tag : String) (image : Nat) (r : Runner)
    (scope : Option String) : LogResult :=
  match log_image_path cfg r tag scope with
  | some p => ⟨[Write.imageAppend p image], none⟩
  | none => ⟨[], some PyErr.unboundLocal⟩

/-- The neptune_path assignment of NeptuneLogger.log_artifact (lines 180-211); none
models the branch chain leaving neptune_path unassigned for an unrecognized scope. -/
def log_artifact_path (cfg : LoggerCfg) (r : Runner) (tag : String) (scope : Option String) :
    Option String :=
  if scope = some "batch" then
    some (String.intercalate "/" [cfg.base_namespace, "_artifacts",
      "epoch-" ++ format04 r.epoch_step, "loader-" ++ r.loader_key,
      "batch-" ++ format04 r.batch_step, tag])
  else if scope = some "loader" then
    some (String.intercalate "/" [cfg.base_namespace, "_artifacts",
      "epoch-" ++ format04 r.epoch_step, "loader-" ++ r.loader_key, tag])
  else if scope = some "epoch" then
    some (String.intercalate "/" [cfg.base_namespace, "_artifacts",
      "epoch-" ++ format04 r.epoch_step, tag])
  else if scope = some "experiment" ∨ scope = none then
    some (String.intercalate "/" [cfg.base_namespace, "_artifacts", tag])
  else none

/-- NeptuneLogger._log_artifact (lines 163-167): upload the pickled in-memory object
when present, else upload from the path, else do nothing. -/
def log_artifact_inner (artifact : Option Nat) (path_to_artifact : Option String)
    (neptune_path : String) : LogResult :=
  match artifact with
  | some a => ⟨[Write.uploadPickle neptune_path a], none⟩
  | none =>
    match path_to_artifact with
    | some p => ⟨[Write.uploadFile neptune_path p], none⟩
    | none => ⟨[], none⟩

/-- NeptuneLogger.log_artifact (lines 169-212). When both artifact and
path_to_artifact are supplied, line 179 constructs
ValueError("artifact and path_to_artifact are mutually exclusive") but never raises
it, so the statement has no observable effect and the method proceeds. -/
def log_artifact (cfg : LoggerCfg) (tag : String) (r : Runner) (artifact : Option Nat)
    (path_to_artifact : Option String) (scope : Option String) : LogResult :=
  match log_artifact_path cfg r tag scope with
  | some p => log_artifact_inner artifact path_to_artifact p
  | none => ⟨[], some PyErr.unboundLocal⟩

/- Environment probe (src/catalyst/utils/sys.py). -/

/-- A JSON-like value stored in the environment snapshot: a string, or the nested
git sub-mapping. The _decode_dict helper of sys.py only converts bytes to str and is
the identity on this model. -/
inductive EnvValue
  | str (s : String)
  | dict (entries : List (String × String))
deriving DecidableEq, Repr

/-- Facts supplied by the host to _get_environment_vars: interpreter/version strings,
the platform.uname() fields, the optional environment variables, and the outcome of
the three git subprocess queries (none models CalledProcessError/FileNotFoundError).
The origin-commit query takes the stripped branch name it interpolates. -/
structure HostEnv where
  python_version : String
  utcnow : String
  sysname : String
  nodename : String
  release : String
  version : String
  architecture : String
  conda_default_env : Option String
  user_env : Option String
  pwd_env : Option String
  git_branch : Option String
  git_local_commit : Option String
  git_origin_commit : String → Option String

/-- The base result dict of _get_environment_vars (sys.py lines 186-197), before the
git block runs. -/
def baseEnvEntries (e : HostEnv) : List (String × EnvValue) :=
  [("python_version", EnvValue.str e.python_version),
   ("conda_environment", EnvValue.str (e.conda_default_env.getD "")),
   ("creation_time", EnvValue.str e.utcnow),
   ("sysname", EnvValue.str e.sysname),
   ("nodename", EnvValue.str e.nodename),
   ("release", EnvValue.str e.release),
   ("version", EnvValue.str e.version),
   ("architecture", EnvValue.str e.architecture),
   ("user", EnvValue.str (e.user_env.getD "")),
   ("path", EnvValue.str (e.pwd_env.getD ""))]

/-- _get_environment_vars (sys.py lines 184-225): the git sub-mapping is added only
when none of the three subprocess queries raises; the branch output is stripped and
interpolated into the origin query. -/
def get_environment_vars (e : HostEnv) : List (String × EnvValue) :=
  match e.git_branch with
  | none => baseEnvEntries e
  | some raw =>
    match e.git_local_commit with
    | none => baseEnvEntries e
    | some lc =>
      match e.git_origin_commit (pyStrip raw) with
      | none => baseEnvEntries e
      | some oc =>
        baseEnvEntries e ++
          [("git", EnvValue.dict
            [("branch", pyStrip raw), ("local_commit", lc), ("origin_commit", oc)])]

/-- The config argument of dump_environment: absent, a plain mapping, or (when hydra
is available) an omegaconf DictConfig. -/
inductive ConfigArg
  | noConfig
  | plain
  | dictConfig
deriving DecidableEq, Repr

/-- The file names dump_environment (sys.py lines 285-318) creates under
logdir/configs, in write order: config.yaml only for a hydra DictConfig,
_environment.json always, _config.json when a config was supplied, pip-packages.txt
written unconditionally at line 310, conda-packages.txt only when the conda listing
is non-empty (line 312), then one copy per supplied config path under its basename. -/
def dump_environment_files (isHydraAvailable : Bool) (config : ConfigArg)
    (pip_pkg conda_pkg : String) (configNames : List String) : List String :=
  (if isHydraAvailable = true ∧ config = ConfigArg.dictConfig then ["config.yaml"] else [])
    ++ ["_environment.json"]
    ++ (if config ≠ ConfigArg.noConfig then ["_config.json"] else [])
    ++ ["pip-packages.txt"]
    ++ (if conda_pkg ≠ "" then ["conda-packages.txt"] else [])
    ++ configNames

example : log_artifact_path ⟨"experiment", true, true⟩ ⟨3, "train", 7, 0⟩ "sample"
    (some "batch") = some "experiment/_artifacts/epoch-0003/loader-train/batch-0007/sample" := by
  decide

example : log_image ⟨"experiment", true, true⟩ "t" 0 ⟨1, "train", 2, 3⟩ (some "foo")
    = ⟨[], some PyErr.unboundLocal⟩ := by decide

example : log_metrics ⟨"experiment", true, true⟩ [("loss", MetricV.num 2)] (some "foo")
    ⟨1, "train", 2, 3⟩ = ⟨[], none⟩ := by decide

example : log_artifact ⟨"experiment", true, true⟩ "model" ⟨1, "train", 2, 3⟩ (some 7)
    (some "weights.h5") (some "experiment")
    = ⟨[Write.uploadPickle "experiment/_artifacts/model" 7], none⟩ := by decide

example :
    (((get_environment_vars
      ⟨"3.8", "t", "Linux", "n", "r", "v", "x86", none, none, none, none, none,
        fun _ => none⟩).map Prod.fst).filter (fun k => k != "git")).length = 10 := by
  decide

example : "pip-packages.txt" ∈ dump_environment_files false ConfigArg.noConfig "" "" [] := by
  decide

/-- Claim C3 (code_bug evidence): _prepare_metrics is not total. On the input
{"p/std": v} with neither "p" nor "p/val" present, line 30 executes
processed_metrics.pop("p") on a missing key, so the call raises KeyError instead of
leaving the batch unchanged as the spec's "rename the base key, if present" states. -/
theorem c3_std_without_base_keyerror :
    prepare_metrics [("p/std", (1 : Int))] = none := by decide

/-- Claim C4 (code_bug evidence): calling log_artifact with both an in-memory
artifact and a path supplied is not rejected. Line 179 constructs the ValueError but
never raises it, and the call proceeds to upload the pickled in-memory artifact. -/
theorem c4_both_artifact_inputs_uploads :
    log_artifact ⟨"experiment", true, true⟩ "model" ⟨1, "train", 2, 3⟩ (some 7)
      (some "weights.h5") (some "experiment")
      = ⟨[Write.uploadPickle "experiment/_artifacts/model" 7], none⟩ := by decide

/-- Claim C9: for base "experiment", scope batch, epoch_step 3, loader "train",
batch_step 7 and tag "sample", log_artifact builds the path
experiment/_artifacts/epoch-0003/loader-train/batch-0007/sample, with numeric
coordinates zero-padded to 4 digits. -/
theorem c9_batch_artifact_path :
    log_artifact_path ⟨"experiment", true, true⟩ ⟨3, "train", 7, 0⟩ "sample" (some "batch")
      = some "experiment/_artifacts/epoch-0003/loader-train/batch-0007/sample" := by decide

/-- Claim C10: passing scope None behaves identically to scope "experiment" for
log_metrics, log_image and log_artifact: log_metrics writes each metric under the
bare base namespace at step 0 regardless of the toggles, log_image uses
base/_images/tag, and log_artifact uses base/_artifacts/tag. -/
theorem c10_scope_none_experiment (cfg : LoggerCfg) (r : Runner)
    (m : List (String × MetricV)) (tag : String) (img : Nat) (art : Option Nat)
    (pta : Option String) :
    (log_metrics cfg m none r = log_metrics cfg m (some "experiment") r
      ∧ log_metrics cfg m none r = metricWrites cfg.base_namespace 0 m)
    ∧ (log_image cfg tag img r none = log_image cfg tag img r (some "experiment")
      ∧ log_image cfg tag img r none
          = ⟨[Write.imageAppend
              (String.intercalate "/" [cfg.base_namespace, "_images", tag]) img], none⟩)
    ∧ (log_artifact cfg tag r art pta none = log_artifact cfg tag r art pta (some "experiment")
      ∧ log_artifact_path cfg r tag none
          = some (String.intercalate "/" [cfg.base_namespace, "_artifacts", tag])) :=
  ⟨⟨rfl, rfl⟩, ⟨rfl, rfl⟩, rfl, rfl⟩

/-- Claim C2 (refuting instance): on the unrecognized scope "custom", log_image is not
a silent no-op: no branch assigns log_path, and the unconditional _log_image call at
line 238 raises an UnboundLocalError. -/
theorem c2_counterexample :
    log_image ⟨"experiment", true, true⟩ "t" 0 ⟨1, "train", 2, 3⟩ (some "custom")
      = ⟨[], some PyErr.unboundLocal⟩ := by decide

/-- Claim C2 as amended: for every scope string outside batch/loader/epoch/experiment,
log_metrics is a silent no-op (no write, no error), while log_image and log_artifact
perform no backend write but raise an unbound-local error for the missing path. -/
theorem c2_unknown_scope_behavior (cfg : LoggerCfg) (r : Runner)
    (m : List (String × MetricV)) (tag : String) (img : Nat) (art : Option Nat)
    (pta : Option String) (s : String)
    (hb : s ≠ "batch") (hl : s ≠ "loader") (he : s ≠ "epoch") (hx : s ≠ "experiment") :
    log_metrics cfg m (some s) r = ⟨[], none⟩
    ∧ log_image cfg tag img r (some s) = ⟨[], some PyErr.unboundLocal⟩
    ∧ log_artifact cfg tag r art pta (some s) = ⟨[], some PyErr.unboundLocal⟩ := by
  refine ⟨?_, ?_, ?_⟩ <;>
    simp [log_metrics, log_image, log_image_path, log_artifact, log_artifact_path,
      hb, hl, he, hx]

/-- Witness for c2_unknown_scope_behavior at the concrete scope "custom". -/
theorem c2_unknown_scope_behavior_witness :
    (("custom" : String) ≠ "batch" ∧ ("custom" : String) ≠ "loader"
      ∧ ("custom" : String) ≠ "epoch" ∧ ("custom" : String) ≠ "experiment")
    ∧ (log_metrics ⟨"experiment", true, true⟩ [("loss", MetricV.num 2)] (some "custom")
          ⟨1, "train", 2, 3⟩ = ⟨[], none⟩
      ∧ log_image ⟨"experiment", true, true⟩ "t" 5 ⟨1, "train", 2, 3⟩ (some "custom")
          = ⟨[], some PyErr.unboundLocal⟩
      ∧ log_artifact ⟨"experiment", true, true⟩ "t" ⟨1, "train", 2, 3⟩ (some 7) none
          (some "custom") = ⟨[], some PyErr.unboundLocal⟩) :=
  ⟨⟨by decide, by decide, by decide, by decide⟩,
    c2_unknown_scope_behavior ⟨"experiment", true, true⟩ ⟨1, "train", 2, 3⟩
      [("loss", MetricV.num 2)] "t" 5 (some 7) none "custom"
      (by decide) (by decide) (by decide) (by decide)⟩

/-- Claim C7 (refuting instance): on a host with no git and no environment variables,
the snapshot has 10 non-VCS keys, not 9 (the conda_environment key is the tenth). -/
theorem c7_counterexample :
    (((get_environment_vars
      ⟨"3.8", "t", "Linux", "n", "r", "v", "x86", none, none, none, none, none,
        fun _ => none⟩).map Prod.fst).filter (fun k => k != "git")).length ≠ 9 := by decide

/-- Claim C7 as amended: for any host the snapshot contains exactly the 10 non-VCS
keys (python_version, conda_environment, creation_time, sysname, nodename, release,
version, architecture, user, path), with absent env-var facts defaulted to empty
strings in baseEnvEntries, and the git sub-mapping is present iff all three
git queries succeed. -/
theorem c7_snapshot_keys (e : HostEnv) :
    ((get_environment_vars e).map Prod.fst).filter (fun k => k != "git")
      = ["python_version", "conda_environment", "creation_time", "sysname", "nodename",
         "release", "version", "architecture", "user", "path"]
    ∧ (("git" ∈ (get_environment_vars e).map Prod.fst) ↔
        ∃ b lc oc, e.git_branch = some b ∧ e.git_local_commit = some lc
          ∧ e.git_origin_commit (pyStrip b) = some oc) := by
  rcases hb : e.git_branch with _ | raw
  · constructor
    · simp [get_environment_vars, hb, baseEnvEntries]
    · simp [get_environment_vars, hb, baseEnvEntries]
  · rcases hl : e.git_local_commit with _ | lc
    · constructor
      · simp [get_environment_vars, hb, hl, baseEnvEntries]
      · simp [get_environment_vars, hb, hl, baseEnvEntries]
    · rcases ho : e.git_origin_commit (pyStrip raw) with _ | oc
      · constructor
        · simp [get_environment_vars, hb, hl, ho, baseEnvEntries]
        · simp [get_environment_vars, hb, hl, ho, baseEnvEntries]
      · constructor
        · simp [get_environment_vars, hb, hl, ho, baseEnvEntries]
        · simp [get_environment_vars, hb, hl, ho, baseEnvEntries]

/-- Claim C8 (refuting instance): with an empty pip listing, pip-packages.txt is still
created (line 310 writes it unconditionally), so existence is not equivalent to the
listing being non-empty. -/
theorem c8_counterexample :
    ¬ (("pip-packages.txt" ∈ dump_environment_files false ConfigArg.noConfig "" "" [])
        ↔ ("" : String) ≠ "") := by decide

/-- Claim C8 as amended: after dump_environment, pip-packages.txt always exists
(written unconditionally, possibly empty), while conda-packages.txt exists iff the
conda listing was non-empty, provided no copied config file shares that name. -/
theorem c8_package_files (hy : Bool) (cfg : ConfigArg) (pip conda : String)
    (names : List String) (hn : "conda-packages.txt" ∉ names) :
    ("pip-packages.txt" ∈ dump_environment_files hy cfg pip conda names)
    ∧ (("conda-packages.txt" ∈ dump_environment_files hy cfg pip conda names)
        ↔ conda ≠ "") := by
  unfold dump_environment_files
  split_ifs with h1 h2 h3 <;> simp_all

/-- Witness for c8_package_files with a non-empty conda listing and no copied configs. -/
theorem c8_package_files_witness :
    (("conda-packages.txt" ∉ ([] : List String))
    ∧ ("pip-packages.txt" ∈ dump_environment_files false ConfigArg.noConfig "" "c" [])
    ∧ (("conda-packages.txt" ∈ dump_environment_files false ConfigArg.noConfig "" "c" [])
        ↔ ("c" : String) ≠ "")) :=
  ⟨by decide,
    (c8_package_files false ConfigArg.noConfig "" "c" [] (by decide)).1,
    (c8_package_files false ConfigArg.noConfig "" "c" [] (by decide)).2⟩

/- Lemmas about the modelled dict operations. -/

theorem hasKey_iff {V : Type} (d : List (String × V)) (k : String) :
    hasKey d k = true ↔ k ∈ keyList d := by
  simp [hasKey, keyList, List.any_eq_true, List.mem_map]

theorem getVal?_cons_of_beq {V : Type} (p : String × V) (t : List (String × V)) {k : String}
    (h : (p.1 == k) = true) : getVal? (p :: t) k = some p.2 := by
  unfold getVal?
  rw [List.find?_cons_of_pos t h]
  rfl

theorem getVal?_cons_of_bne {V : Type} (p : String × V) (t : List (String × V)) {k : String}
    (h : (p.1 == k) = false) : getVal? (p :: t) k = getVal? t k := by
  unfold getVal?
  rw [List.find?_cons_of_neg t (by simp [h])]

theorem getVal?_eq_none_iff {V : Type} : ∀ (d : List (String × V)) (k : String),
    getVal? d k = none ↔ k ∉ keyList d
  | [], k => by simp [getVal?, keyList]
  | p :: t, k => by
    by_cases hp : (p.1 == k) = true
    · rw [getVal?_cons_of_beq p t hp]
      simp [keyList, beq_iff_eq.mp hp]
    · have hp' : (p.1 == k) = false := by simpa using hp
      rw [getVal?_cons_of_bne p t hp']
      rw [getVal?_eq_none_iff t k]
      have hk : ¬ k = p.1 := fun he => hp (beq_iff_eq.mpr he.symm)
      simp [keyList, List.mem_cons, hk]

theorem getVal?_isSome_of_mem {V : Type} (d : List (String × V)) (k : String)
    (h : k ∈ keyList d) : ∃ v, getVal? d k = some v := by
  rcases hg : getVal? d k with _ | v
  · exact absurd ((getVal?_eq_none_iff d k).mp hg) (fun hn => hn h)
  · exact ⟨v, rfl⟩

theorem popKey?_eq_some {V : Type} {d : List (String × V)} {k : String} {v : V}
    {d1 : List (String × V)} (h : popKey? d k = some (v, d1)) :
    getVal? d k = some v ∧ d1 = eraseKey d k := by
  unfold popKey? at h
  rcases hg : getVal? d k with _ | w
  · rw [hg] at h
    cases h
  · rw [hg] at h
    simp only [Option.some.injEq, Prod.mk.injEq] at h
    exact ⟨by rw [h.1], h.2.symm⟩

theorem keyList_eraseKey {V : Type} (d : List (String × V)) (k : String) :
    keyList (eraseKey d k) = (keyList d).filter (fun s => s != k) := by
  induction d with
  | nil => rfl
  | cons p t ih =>
    by_cases h : (p.1 != k) = true
    · simp [eraseKey, keyList, List.filter_cons, h] at ih ⊢
      exact ih
    · simp [eraseKey, keyList, List.filter_cons, h] at ih ⊢
      exact ih

theorem mem_keyList_eraseKey {V : Type} {d : List (String × V)} {k x : String} :
    x ∈ keyList (eraseKey d k) ↔ x ∈ keyList d ∧ x ≠ k := by
  rw [keyList_eraseKey]
  simp [List.mem_filter]

theorem eraseKey_of_notMem {V : Type} {d : List (String × V)} {k : String}
    (h : k ∉ keyList d) : eraseKey d k = d := by
  apply List.filter_eq_self.mpr
  intro p hp
  have hmem : p.1 ∈ keyList d := List.mem_map_of_mem Prod.fst hp
  exact bne_iff_ne.mpr (fun he => h (he ▸ hmem))

theorem keyList_map_update {V : Type} : ∀ (d : List (String × V)) (k : String) (v : V),
    keyList (d.map (fun p => if p.1 == k then (k, v) else p)) = keyList d
  | [], _, _ => rfl
  | p :: t, k, v => by
    have ih := keyList_map_update t k v
    simp only [keyList, List.map_cons] at ih ⊢
    by_cases hp : (p.1 == k) = true
    · rw [if_pos hp, ih]
      have hk : p.1 = k := beq_iff_eq.mp hp
      rw [hk]
    · rw [if_neg hp, ih]

theorem keyList_setKey_of_mem {V : Type} {d : List (String × V)} {k : String} (v : V)
    (h : k ∈ keyList d) : keyList (setKey d k v) = keyList d := by
  unfold setKey
  rw [if_pos ((hasKey_iff d k).mpr h)]
  exact keyList_map_update d k v

theorem keyList_setKey_of_notMem {V : Type} {d : List (String × V)} {k : String} (v : V)
    (h : k ∉ keyList d) : keyList (setKey d k v) = keyList d ++ [k] := by
  unfold setKey
  rw [if_neg (fun hh => h ((hasKey_iff d k).mp hh))]
  simp [keyList]

theorem values_setKey_of_notMem {V : Type} {d : List (String × V)} {k : String} (v : V)
    (h : k ∉ keyList d) : (setKey d k v).map Prod.snd = d.map Prod.snd ++ [v] := by
  unfold setKey
  rw [if_neg (fun hh => h ((hasKey_iff d k).mp hh))]
  simp

theorem values_erase_perm {V : Type} : ∀ (d : List (String × V)) (k : String) (v : V),
    (keyList d).Nodup → getVal? d k = some v →
    (d.map Prod.snd).Perm (v :: (eraseKey d k).map Prod.snd)
  | [], k, v, _, h => by simp [getVal?] at h
  | p :: t, k, v, hnd, h => by
    have hnd' : (keyList t).Nodup := by
      simp only [keyList, List.map_cons, List.nodup_cons] at hnd
      exact hnd.2
    by_cases hp : (p.1 == k) = true
    · have hk : p.1 = k := beq_iff_eq.mp hp
      have hv : p.2 = v := by
        rw [getVal?_cons_of_beq p t hp] at h
        exact Option.some.inj h
      have hkt : k ∉ keyList t := by
        simp only [keyList, List.map_cons, List.nodup_cons] at hnd
        exact hk ▸ hnd.1
      have hcond : (p.1 != k) = false := by simp only [bne, hp, Bool.not_true]
      have he : eraseKey (p :: t) k = t := by
        simp only [eraseKey, List.filter_cons, hcond, Bool.false_eq_true, if_false]
        exact eraseKey_of_notMem hkt
      rw [he, ← hv]
      exact List.Perm.refl _
    · have hp' : (p.1 == k) = false := by simpa using hp
      have h' : getVal? t k = some v := by
        rw [getVal?_cons_of_bne p t hp'] at h
        exact h
      have hcond : (p.1 != k) = true := by simp only [bne, hp', Bool.not_false]
      have he : eraseKey (p :: t) k = p :: eraseKey t k := by
        simp only [eraseKey, List.filter_cons, hcond, if_true]
      rw [he]
      have step1 : ((p :: t).map Prod.snd).Perm (p.2 :: v :: (eraseKey t k).map Prod.snd) :=
        (values_erase_perm t k v hnd' h').cons p.2
      have step2 : (p.2 :: v :: (eraseKey t k).map Prod.snd).Perm
          (v :: p.2 :: (eraseKey t k).map Prod.snd) := List.Perm.swap v p.2 _
      exact step1.trans step2

/- Invariants of the three passes of _prepare_metrics. -/

theorem stdPass_nodup_perm {V : Type} :
    ∀ (ks : List String) (d d' : List (String × V)),
      stdPass ks d = some d' → (keyList d).Nodup →
      (keyList d').Nodup ∧ ((d'.map Prod.snd).Perm (d.map Prod.snd))
  | [], d, d', h, hnd => by
    have hd : d = d' := Option.some.inj h
    exact hd ▸ ⟨hnd, List.Perm.refl _⟩
  | k :: ks, d, d', h, hnd => by
    simp only [stdPass] at h
    by_cases he : pyEndsWith k "/std" = true
    · rw [if_pos he] at h
      by_cases hv : hasKey d (k.dropRight 4 ++ "/val") = true
      · rw [if_pos hv] at h
        exact stdPass_nodup_perm ks d d' h hnd
      · rw [if_neg hv] at h
        rcases hp : popKey? d (k.dropRight 4) with _ | pr
        · rw [hp] at h
          cases h
        · rw [hp] at h
          obtain ⟨v, d1⟩ := pr
          obtain ⟨hg, hd1⟩ := popKey?_eq_some hp
          have hvd : (k.dropRight 4 ++ "/val") ∉ keyList d :=
            fun hmem => hv ((hasKey_iff _ _).mpr hmem)
          have hvd1 : (k.dropRight 4 ++ "/val") ∉ keyList d1 := by
            rw [hd1]
            exact fun hmem => hvd (mem_keyList_eraseKey.mp hmem).1
          have hnd1 : (keyList d1).Nodup := by
            rw [hd1, keyList_eraseKey]
            exact hnd.filter _
          have hndset : (keyList (setKey d1 (k.dropRight 4 ++ "/val") v)).Nodup := by
            rw [keyList_setKey_of_notMem v hvd1]
            simp [List.nodup_append, hvd1, hnd1]
          obtain ⟨hnd', hperm'⟩ := stdPass_nodup_perm ks _ d' h hndset
          refine ⟨hnd', ?_⟩
          have hvals : (setKey d1 (k.dropRight 4 ++ "/val") v).map Prod.snd
              = d1.map Prod.snd ++ [v] := values_setKey_of_notMem v hvd1
      -- values d' ~ values d1 ++ [v] ~ v :: values d1 ~ values d
          have h2 : (d1.map Prod.snd ++ [v]).Perm (v :: d1.map Prod.snd) :=
            List.perm_append_singleton v _
          have h3 : (d.map Prod.snd).Perm (v :: d1.map Prod.snd) := by
            rw [hd1]
            exact values_erase_perm d (k.dropRight 4) v hnd hg
          exact ((hperm'.trans (hvals ▸ h2)).trans h3.symm)
    · rw [if_neg he] at h
      exact stdPass_nodup_perm ks d d' h hnd

/- Lemmas about the conflict scan. -/

theorem mem_foldl_conflictStep_of_mem_acc (ks : List String) :
    ∀ (l acc : List String) (x : String), x ∈ acc → x ∈ l.foldl (conflictStep ks) acc
  | [], _, x, hx => hx
  | a :: l, acc, x, hx => by
    apply mem_foldl_conflictStep_of_mem_acc ks l
    unfold conflictStep
    split
    · exact List.mem_append_left _ hx
    · exact hx

theorem mem_foldl_conflictStep (ks : List String) (x : String)
    (hcond : (ks.any fun j => pyStartsWith j x && j != x) = true) :
    ∀ (l acc : List String), x ∈ l → x ∈ l.foldl (conflictStep ks) acc
  | [], _, hx => by cases hx
  | a :: l, acc, hx => by
    rcases List.mem_cons.mp hx with rfl | hxl
    · by_cases hc : acc.contains x = true
      · have hmem : x ∈ acc := by simpa using hc
        apply mem_foldl_conflictStep_of_mem_acc ks l
        unfold conflictStep
        split
        · exact List.mem_append_left _ hmem
        · exact hmem
      · have hna : x ∉ acc := fun hmem => hc (by simpa using hmem)
        apply mem_foldl_conflictStep_of_mem_acc ks l
        unfold conflictStep
        rw [if_pos (by simp [hcond, hna])]
        exact List.mem_append_right _ (by simp)
    · exact mem_foldl_conflictStep ks x hcond l (conflictStep ks acc a) hxl

theorem mem_conflictKeys {ks : List String} {k j : String} (hk : k ∈ ks) (hj : j ∈ ks)
    (hs : pyStartsWith j k = true) (hne : j ≠ k) : k ∈ conflictKeys ks := by
  apply mem_foldl_conflictStep ks k _ ks [] hk
  apply List.any_eq_true.mpr
  refine ⟨j, hj, ?_⟩
  rw [hs, bne_iff_ne.mpr hne]
  rfl

theorem foldl_conflictStep_nodup (ks : List String) :
    ∀ (l acc : List String), acc.Nodup → (l.foldl (conflictStep ks) acc).Nodup
  | [], _, h => h
  | a :: l, acc, h => by
    apply foldl_conflictStep_nodup ks l
    unfold conflictStep
    split
    · next hcnd =>
      have hna : a ∉ acc := by
        intro hmem
        simp at hcnd
        exact hcnd.2 hmem
      simp [List.nodup_append, h, hna]
    · exact h

theorem conflictKeys_nodup (ks : List String) : (conflictKeys ks).Nodup :=
  foldl_conflictStep_nodup ks ks [] List.nodup_nil

theorem foldl_conflictStep_subset (ks : List String) :
    ∀ (l acc : List String) (x : String), x ∈ l.foldl (conflictStep ks) acc →
      x ∈ acc ∨ x ∈ l
  | [], _, x, h => Or.inl h
  | a :: l, acc, x, h => by
    rcases foldl_conflictStep_subset ks l (conflictStep ks acc a) x h with h1 | h2
    · unfold conflictStep at h1
      split at h1
      · rcases List.mem_append.mp h1 with h3 | h4
        · exact Or.inl h3
        · have hxa : x = a := by simpa using h4
          exact Or.inr (by simp [hxa])
      · exact Or.inl h1
    · exact Or.inr (by simp [h2])

theorem conflictKeys_subset {ks : List String} {x : String}
    (h : x ∈ conflictKeys ks) : x ∈ ks := by
  rcases foldl_conflictStep_subset ks ks [] x h with h1 | h2
  · cases h1
  · exact h2

/- Lemmas about the rename pass. -/

theorem string_append_right_cancel {a b c : String} (h : a ++ c = b ++ c) : a = b := by
  have hd : (a ++ c).data = (b ++ c).data := congrArg String.data h
  rw [String.data_append, String.data_append] at hd
  exact String.ext (List.append_cancel_right hd)

theorem append_val_injective : Function.Injective (fun i : String => i ++ "_val") :=
  fun _ _ h => string_append_right_cancel h

theorem renamePass_keys {V : Type} :
    ∀ (cs : List String) (d out : List (String × V)), renamePass cs d = some out →
      ∀ x ∈ keyList out, (x ∈ keyList d ∧ x ∉ cs) ∨ ∃ i, i ∈ cs ∧ x = i ++ "_val"
  | [], d, out, h, x, hx => by
    have hd : d = out := Option.some.inj h
    exact Or.inl ⟨hd ▸ hx, by simp⟩
  | i :: is, d, out, h, x, hx => by
    simp only [renamePass] at h
    rcases hp : popKey? d i with _ | pr
    · rw [hp] at h
      cases h
    · rw [hp] at h
      obtain ⟨v, d1⟩ := pr
      obtain ⟨hg, hd1⟩ := popKey?_eq_some hp
      rcases renamePass_keys is (setKey d1 (i ++ "_val") v) out h x hx with
        ⟨hmem, hnotin⟩ | ⟨j, hj, hxj⟩
      · by_cases hset : (i ++ "_val") ∈ keyList d1
        · rw [keyList_setKey_of_mem v hset] at hmem
          rw [hd1] at hmem
          obtain ⟨hxd, hxi⟩ := mem_keyList_eraseKey.mp hmem
          refine Or.inl ⟨hxd, ?_⟩
          rw [List.mem_cons]
          push_neg
          exact ⟨hxi, hnotin⟩
        · rw [keyList_setKey_of_notMem v hset] at hmem
          rcases List.mem_append.mp hmem with hmem1 | hmem2
          · rw [hd1] at hmem1
            obtain ⟨hxd, hxi⟩ := mem_keyList_eraseKey.mp hmem1
            refine Or.inl ⟨hxd, ?_⟩
            rw [List.mem_cons]
            push_neg
            exact ⟨hxi, hnotin⟩
          · have hxi : x = i ++ "_val" := by simpa using hmem2
            exact Or.inr ⟨i, by simp, hxi⟩
      · exact Or.inr ⟨j, by simp [hj], hxj⟩

theorem renamePass_perm {V : Type} :
    ∀ (cs : List String) (d : List (String × V)),
      cs.Nodup → (keyList d).Nodup →
      (∀ i ∈ cs, i ∈ keyList d) →
      (∀ i ∈ cs, (i ++ "_val") ∉ keyList d) →
      (cs.map (fun i => i ++ "_val")).Nodup →
      ∃ out, renamePass cs d = some out
        ∧ ((out.map Prod.snd).Perm (d.map Prod.snd)) ∧ (keyList out).Nodup
  | [], d, _, hnd, _, _, _ => ⟨d, rfl, List.Perm.refl _, hnd⟩
  | i :: is, d, hcs, hnd, hin, hfr, hmapnd => by
    obtain ⟨v, hg⟩ := getVal?_isSome_of_mem d i (hin i (by simp))
    have hpop : popKey? d i = some (v, eraseKey d i) := by
      unfold popKey?
      rw [hg]
    have hival : (i ++ "_val") ∉ keyList (eraseKey d i) := fun hmem =>
      hfr i (by simp) (mem_keyList_eraseKey.mp hmem).1
    have hnd1 : (keyList (eraseKey d i)).Nodup := by
      rw [keyList_eraseKey]
      exact hnd.filter _
    have hsetkeys : keyList (setKey (eraseKey d i) (i ++ "_val") v)
        = keyList (eraseKey d i) ++ [i ++ "_val"] := keyList_setKey_of_notMem v hival
    have hcs' : is.Nodup := (List.nodup_cons.mp hcs).2
    have hnd2 : (keyList (setKey (eraseKey d i) (i ++ "_val") v)).Nodup := by
      rw [hsetkeys]
      simp [List.nodup_append, hnd1, hival]
    have hin' : ∀ j ∈ is, j ∈ keyList (setKey (eraseKey d i) (i ++ "_val") v) := by
      intro j hj
      rw [hsetkeys]
      apply List.mem_append_left
      apply mem_keyList_eraseKey.mpr
      refine ⟨hin j (by simp [hj]), ?_⟩
      intro hji
      exact (List.nodup_cons.mp hcs).1 (hji ▸ hj)
    have hmapnd' : (is.map (fun i => i ++ "_val")).Nodup := by
      simp only [List.map_cons, List.nodup_cons] at hmapnd
      exact hmapnd.2
    have hfr' : ∀ j ∈ is, (j ++ "_val") ∉ keyList (setKey (eraseKey d i) (i ++ "_val") v) := by
      intro j hj hmem
      rw [hsetkeys] at hmem
      rcases List.mem_append.mp hmem with h1 | h2
      · exact hfr j (by simp [hj]) (mem_keyList_eraseKey.mp h1).1
      · have heq : j ++ "_val" = i ++ "_val" := by simpa using h2
        simp only [List.map_cons, List.nodup_cons] at hmapnd
        exact hmapnd.1 (heq ▸ List.mem_map_of_mem (fun i => i ++ "_val") hj)
    obtain ⟨out, hrn, hperm, hndo⟩ := renamePass_perm is
      (setKey (eraseKey d i) (i ++ "_val") v) hcs' hnd2 hin' hfr' hmapnd'
    refine ⟨out, ?_, ?_, hndo⟩
    · simp only [renamePass, hpop]
      exact hrn
    · have hvals : (setKey (eraseKey d i) (i ++ "_val") v).map Prod.snd
          = (eraseKey d i).map Prod.snd ++ [v] := values_setKey_of_notMem v hival
      have h2 : ((eraseKey d i).map Prod.snd ++ [v]).Perm (v :: (eraseKey d i).map Prod.snd) :=
        List.perm_append_singleton v _
      have h3 : (d.map Prod.snd).Perm (v :: (eraseKey d i).map Prod.snd) :=
        values_erase_perm d i v hnd hg
      exact (hperm.trans (hvals ▸ h2)).trans h3.symm

/- The std pass leaves a dict unchanged when every /std key already has its /val sibling. -/

theorem stdPass_id {V : Type} :
    ∀ (ks : List String) (d : List (String × V)),
      (∀ k ∈ ks, pyEndsWith k "/std" = true → hasKey d (k.dropRight 4 ++ "/val") = true) →
      stdPass ks d = some d
  | [], _, _ => rfl
  | k :: ks, d, h => by
    simp only [stdPass]
    by_cases he : pyEndsWith k "/std" = true
    · rw [if_pos he, if_pos (h k (by simp) he)]
      exact stdPass_id ks d (fun k2 hk2 => h k2 (by simp [hk2]))
    · rw [if_neg he]
      exact stdPass_id ks d (fun k2 hk2 => h k2 (by simp [hk2]))

/-- Claim C1 (refuting instance): the output of _prepare_metrics can contain two
distinct keys with one a strict prefix of the other. On {"a": 1, "a_valx": 2} the key
"a" is flagged and renamed to "a_val", which is a strict prefix of the untouched key
"a_valx" in the output. -/
theorem c1_counterexample :
    prepare_metrics [("a", (1 : Int)), ("a_valx", 2)] = some [("a_valx", 2), ("a_val", 1)]
    ∧ pyStartsWith "a_valx" "a_val" = true
    ∧ ("a_valx" : String) ≠ "a_val" := by decide

/-- Claim C1 as amended: every key of the post-pairing mapping that is a strict
prefix of another such key is flagged and renamed, so it can survive into the output
only as the rename target i ++ "_val" of some flagged key i; the rewrite itself can
however introduce fresh prefix pairs involving renamed keys. -/
theorem c1_flagged_keys_renamed {V : Type} (m d1 out : List (String × V)) (k j : String)
    (hstd : stdPass (keyList m) m = some d1)
    (hout : prepare_metrics m = some out)
    (hk : k ∈ keyList d1) (hj : j ∈ keyList d1) (hne : j ≠ k)
    (hpre : pyStartsWith j k = true) :
    k ∉ keyList out ∨ ∃ i, i ∈ conflictKeys (keyList d1) ∧ k = i ++ "_val" := by
  have hrn : renamePass (conflictKeys (keyList d1)) d1 = some out := by
    unfold prepare_metrics at hout
    rw [hstd] at hout
    exact hout
  by_cases hmem : k ∈ keyList out
  · rcases renamePass_keys (conflictKeys (keyList d1)) d1 out hrn k hmem with
      ⟨_, hnc⟩ | hex
    · exact absurd (mem_conflictKeys hk hj hpre hne) hnc
    · exact Or.inr hex
  · exact Or.inl hmem

/-- Witness for c1_flagged_keys_renamed on the input {"loss": 2, "loss/auc": 0.9},
where "loss" strictly prefixes "loss/auc" and is renamed to "loss_val". -/
theorem c1_flagged_keys_renamed_witness :
    (stdPass (keyList [("loss", (2 : Int)), ("loss/auc", 9)])
        [("loss", (2 : Int)), ("loss/auc", 9)] = some [("loss", (2 : Int)), ("loss/auc", 9)]
      ∧ prepare_metrics [("loss", (2 : Int)), ("loss/auc", 9)]
        = some [("loss/auc", (9 : Int)), ("loss_val", 2)]
      ∧ "loss" ∈ keyList [("loss", (2 : Int)), ("loss/auc", 9)]
      ∧ "loss/auc" ∈ keyList [("loss", (2 : Int)), ("loss/auc", 9)]
      ∧ ("loss/auc" : String) ≠ "loss"
      ∧ pyStartsWith "loss/auc" "loss" = true)
    ∧ ("loss" ∉ keyList [("loss/auc", (9 : Int)), ("loss_val", 2)]
      ∨ ∃ i, i ∈ conflictKeys (keyList [("loss", (2 : Int)), ("loss/auc", 9)])
          ∧ "loss" = i ++ "_val") :=
  ⟨⟨by decide, by decide, by decide, by decide, by decide, by decide⟩,
    c1_flagged_keys_renamed [("loss", (2 : Int)), ("loss/auc", 9)]
      [("loss", (2 : Int)), ("loss/auc", 9)] [("loss/auc", (9 : Int)), ("loss_val", 2)]
      "loss" "loss/auc" (by decide) (by decide) (by decide) (by decide) (by decide)
      (by decide)⟩

/-- Claim C5 (refuting instance): renaming can overwrite a distinct existing entry.
On {"a": 1, "a_val": 2} the flagged key "a" is renamed to "a_val", overwriting the
existing entry, so the output has 1 entry instead of 2 and the value 2 is dropped. -/
theorem c5_counterexample :
    prepare_metrics [("a", (1 : Int)), ("a_val", 2)] = some [("a_val", 1)]
    ∧ [("a_val", (1 : Int))].length ≠ [("a", (1 : Int)), ("a_val", (2 : Int))].length := by
  decide

/-- Claim C5 as amended: when no flagged key k already has k ++ "_val" present in the
post-pairing mapping, the output of _prepare_metrics has exactly as many entries as
the input and the multiset of values is preserved. -/
theorem c5_preserves_entries {V : Type} (m d1 out : List (String × V))
    (hnd : (keyList m).Nodup)
    (hstd : stdPass (keyList m) m = some d1)
    (hfresh : ∀ i ∈ conflictKeys (keyList d1), (i ++ "_val") ∉ keyList d1)
    (hout : prepare_metrics m = some out) :
    out.length = m.length ∧ ((out.map Prod.snd).Perm (m.map Prod.snd)) := by
  have hrn : renamePass (conflictKeys (keyList d1)) d1 = some out := by
    unfold prepare_metrics at hout
    rw [hstd] at hout
    exact hout
  obtain ⟨hnd1, hperm1⟩ := stdPass_nodup_perm (keyList m) m d1 hstd hnd
  obtain ⟨out', hrn', hperm2, hndo⟩ := renamePass_perm (conflictKeys (keyList d1)) d1
    (conflictKeys_nodup _) hnd1
    (fun i hi => conflictKeys_subset hi)
    hfresh
    ((conflictKeys_nodup _).map append_val_injective)
  have hout' : out' = out := by
    rw [hrn'] at hrn
    exact Option.some.inj hrn
  rw [hout'] at hperm2
  have hperm : (out.map Prod.snd).Perm (m.map Prod.snd) := hperm2.trans hperm1
  refine ⟨?_, hperm⟩
  have hlen := hperm.length_eq
  simpa using hlen

/-- Witness for c5_preserves_entries on the input {"loss": 2, "loss/auc": 0.9}. -/
theorem c5_preserves_entries_witness :
    ((keyList [("loss", (2 : Int)), ("loss/auc", 9)]).Nodup
      ∧ stdPass (keyList [("loss", (2 : Int)), ("loss/auc", 9)])
          [("loss", (2 : Int)), ("loss/auc", 9)] = some [("loss", (2 : Int)), ("loss/auc", 9)]
      ∧ (∀ i ∈ conflictKeys (keyList [("loss", (2 : Int)), ("loss/auc", 9)]),
          (i ++ "_val") ∉ keyList [("loss", (2 : Int)), ("loss/auc", 9)])
      ∧ prepare_metrics [("loss", (2 : Int)), ("loss/auc", 9)]
          = some [("loss/auc", (9 : Int)), ("loss_val", 2)])
    ∧ ([("loss/auc", (9 : Int)), ("loss_val", 2)].length
          = [("loss", (2 : Int)), ("loss/auc", 9)].length
      ∧ (([("loss/auc", (9 : Int)), ("loss_val", 2)].map Prod.snd).Perm
          ([("loss", (2 : Int)), ("loss/auc", 9)].map Prod.snd))) :=
  ⟨⟨by decide, by decide, by decide, by decide⟩,
    c5_preserves_entries [("loss", (2 : Int)), ("loss/auc", 9)]
      [("loss", (2 : Int)), ("loss/auc", 9)] [("loss/auc", (9 : Int)), ("loss_val", 2)]
      (by decide) (by decide) (by decide) (by decide)⟩

/-- Claim C6 (refuting instance): _prepare_metrics is not idempotent. On
{"a": 1, "a_valx": 2} the first application produces {"a_valx": 2, "a_val": 1}, and
the second application flags the new key "a_val" (a prefix of "a_valx") and renames
it to "a_val_val", changing the mapping again. -/
theorem c6_counterexample :
    prepare_metrics [("a", (1 : Int)), ("a_valx", 2)] = some [("a_valx", 2), ("a_val", 1)]
    ∧ prepare_metrics [("a_valx", (2 : Int)), ("a_val", 1)]
        = some [("a_valx", 2), ("a_val_val", 1)]
    ∧ ([("a_valx", (2 : Int)), ("a_val_val", (1 : Int))] : List (String × Int))
        ≠ [("a_valx", 2), ("a_val", 1)] := by decide

/-- Claim C6 as amended: a second application of _prepare_metrics is the identity on
a first output that is prefix-conflict-free and whose /std keys all have their /val
siblings present; without those conditions the rewrite can change its own output. -/
theorem c6_idempotent_on_resolved {V : Type} (m out : List (String × V))
    (hout : prepare_metrics m = some out)
    (hstd : ∀ k ∈ keyList out, pyEndsWith k "/std" = true →
      (k.dropRight 4 ++ "/val") ∈ keyList out)
    (hcf : conflictKeys (keyList out) = []) :
    prepare_metrics out = some out := by
  unfold prepare_metrics
  rw [stdPass_id (keyList out) out (fun k hk he => (hasKey_iff _ _).mpr (hstd k hk he))]
  show renamePass (conflictKeys (keyList out)) out = some out
  rw [hcf]
  rfl

/-- Witness for c6_idempotent_on_resolved on the std/val pairing example
{"loss/std": 0.1, "loss": 2.3}. -/
theorem c6_idempotent_on_resolved_witness :
    (prepare_metrics [("loss/std", (1 : Int)), ("loss", 2)]
        = some [("loss/std", 1), ("loss/val", 2)]
      ∧ (∀ k ∈ keyList [("loss/std", (1 : Int)), ("loss/val", 2)],
          pyEndsWith k "/std" = true →
          (k.dropRight 4 ++ "/val") ∈ keyList [("loss/std", (1 : Int)), ("loss/val", 2)])
      ∧ conflictKeys (keyList [("loss/std", (1 : Int)), ("loss/val", 2)]) = [])
    ∧ prepare_metrics [("loss/std", (1 : Int)), ("loss/val", 2)]
        = some [("loss/std", 1), ("loss/val", 2)] :=
  ⟨⟨by decide, by decide, by decide⟩,
    c6_idempotent_on_resolved [("loss/std", (1 : Int)), ("loss", 2)]
      [("loss/std", (1 : Int)), ("loss/val", 2)] (by decide) (by decide) (by decide)⟩
